import Mathlib

/-!
Verification of `signal_sampling_experiment.py` (Communications-Principles-Experiment).

The development shallowly embeds the computational core of the script:

* the signal generator `generate_signal` (module-level constants `f1`, `f2`, `phase`);
* the spectrum analysis pipeline of `analyze_spectrum` / `update_plot`
  (time axis `np.arange(N)/fs`, `scipy.fft.fft`, normalized one-sided
  magnitude with the in-place doubling `magnitude[1:-1] *= 2`, and the
  `scipy.fft.fftfreq` frequency axis);
* the interactive session of `interactive_experiment`: the mutable pair
  `(fs_current, N_current)` and the keyboard handler `on_key`, together with
  the observable effects of one handler invocation (state change, call of
  `update_plot`, `plt.savefig`, `plt.close`).

Machine reals are modelled by `ℝ`, Python ints by `ℤ` (sample counts that
index arrays by `ℕ`), and `scipy.fft.fft`, which raises `ValueError` on
zero-length input, by an `Option`-valued function.
-/

namespace SignalSampling

/-! ### Module constants (lines 28-30 of the source) -/

/-- Source line `f1 = 1000  # Hz`. -/
def f1 : ℝ := 1000

/-- Source line `f2 = 1100  # Hz`. -/
def f2 : ℝ := 1100

/-- Source line `phase = np.pi / 4`. -/
noncomputable def phase : ℝ := Real.pi / 4

/-- In the source, `f2` is a Python int that is also compared against the
integer sampling frequency in `update_plot`; this is the same constant in
its integer role. -/
def f2Int : ℤ := 1100

/-! ### Signal generator (lines 33-35) -/

/-- Function `generate_signal` pointwise: `np.cos(2*np.pi*f1*t + phase) + np.cos(2*np.pi*f2*t)`. -/
noncomputable def generate_signal (t : ℝ) : ℝ :=
  Real.cos (2 * Real.pi * f1 * t + phase) + Real.cos (2 * Real.pi * f2 * t)

/-- Function `generate_signal` applied to a whole time array (numpy broadcasts the
scalar formula elementwise over the input vector). -/
noncomputable def generate_signal_seq (t : List ℝ) : List ℝ :=
  t.map generate_signal

/-! ### Interactive session state (lines 117-120, 150-151) -/

/-- Source line `fs_init = 4000`. -/
def fs_init : ℤ := 4000

/-- Source line `N_init = 1000`. -/
def N_init : ℤ := 1000

/-- Source line `fs_step = 500`. -/
def fs_step : ℤ := 500

/-- Source line `N_step = 100`. -/
def N_step : ℤ := 100

/-- The mutable session state: the `nonlocal` pair `fs_current`, `N_current`. -/
structure SessionState where
  fs_current : ℤ
  N_current : ℤ
  deriving DecidableEq

/-- The state at session start: `fs_current = fs_init`, `N_current = N_init`. -/
def initState : SessionState := ⟨fs_init, N_init⟩

/-- Observable outcome of one invocation of the `on_key` handler:
the session state afterwards, whether `update_plot()` ran (full
recomputation of samples and spectrum plus redraw), the filename passed to
`plt.savefig` if any, and whether `plt.close(fig)` ran. -/
structure KeyResult where
  state : SessionState
  redrawn : Bool
  saved : Option String
  closed : Bool
  deriving DecidableEq

/-- The keyboard handler `on_key` (lines 249-274).  The `elif` chain is
translated branch by branch; note that the `'s'` branch does not `return`,
so control falls through to the trailing `update_plot()` call, while the
`'q'` branch and the final `else` return before reaching it. -/
def on_key (st : SessionState) (key : String) : KeyResult :=
  if key = "up" then
    ⟨⟨st.fs_current + fs_step, st.N_current⟩, true, none, false⟩
  else if key = "down" ∧ st.fs_current > fs_step then
    ⟨⟨st.fs_current - fs_step, st.N_current⟩, true, none, false⟩
  else if key = "right" then
    ⟨⟨st.fs_current, st.N_current + N_step⟩, true, none, false⟩
  else if key = "left" ∧ st.N_current > N_step then
    ⟨⟨st.fs_current, st.N_current - N_step⟩, true, none, false⟩
  else if key = "s" then
    ⟨st, true,
      some ("experiment_fs_" ++ toString st.fs_current ++ "_N_"
        ++ toString st.N_current ++ ".png"), false⟩
  else if key = "q" then
    ⟨st, false, none, true⟩
  else
    ⟨st, false, none, false⟩

/-- States of the interactive session reachable from the initial state by
key events. -/
inductive Reachable : SessionState → Prop
  | init : Reachable initState
  | step (st : SessionState) (key : String) (h : Reachable st) :
      Reachable (on_key st key).state

/-! ### Spectrum analysis (lines 38-55 of `analyze_spectrum`, mirrored at
lines 158-172 of `update_plot`) -/

/-- Source line `t = np.arange(N) / fs` (line 41). -/
noncomputable def sample_times (fs : ℝ) (N : ℕ) : List ℝ :=
  (List.range N).map (fun n : ℕ => (n : ℝ) / fs)

/-- Source line `sampled_signal = signal(t)` (line 44): the signal evaluated
elementwise on the time axis. -/
noncomputable def sampled_values (signal : ℝ → ℝ) (fs : ℝ) (N : ℕ) : List ℝ :=
  (sample_times fs N).map signal

/-- Bin `k` of the discrete Fourier transform computed by `scipy.fft.fft`:
`X_k = Σ_{n<N} x_n · exp(-2πi·k·n/N)`. -/
noncomputable def dft (x : List ℝ) (k : ℕ) : ℂ :=
  ∑ n in Finset.range x.length,
    ((x.getD n 0 : ℝ) : ℂ) *
      Complex.exp (-(2 * (Real.pi : ℂ) * Complex.I * k * n) / x.length)

/-- Library call `scipy.fft.fft` (line 47): the full DFT vector.  `scipy.fft.fft`
raises `ValueError: invalid number of data points (0) specified` on an
empty input, modelled by `none`. -/
noncomputable def fft (x : List ℝ) : Option (List ℂ) :=
  if x.length = 0 then none
  else some ((List.range x.length).map (dft x))

/-- Library function `scipy.fft.fftfreq(n, d)`: the array
`[0, 1, ..., (n-1)//2, -(n//2), ..., -1] / (d*n)`. -/
noncomputable def fftfreq (n : ℕ) (d : ℝ) : List ℝ :=
  (List.range n).map (fun k =>
    if k ≤ (n - 1) / 2 then (k : ℝ) / (d * n) else ((k : ℝ) - n) / (d * n))

/-- The in-place slice assignment `magnitude[1:-1] = 2 * magnitude[1:-1]`
(line 52; `update_plot` writes the same update as
`magnitude[1:half_point-1] *= 2` on an array of length `half_point`):
entries at indices `1 ≤ i ≤ len-2` are doubled, the first and last entries
are left alone. -/
noncomputable def doubleInterior (m : List ℝ) : List ℝ :=
  (List.range m.length).map (fun i =>
    if 1 ≤ i ∧ i + 1 < m.length then 2 * m.getD i 0 else m.getD i 0)

/-- Lines 47-51: `magnitude = np.abs(fft(sampled_signal)) / N` followed by
`magnitude = magnitude[:N//2]` — the normalized one-sided magnitude before
the doubling step.  `none` exactly when `fft` raises. -/
noncomputable def onesided_magnitude (signal : ℝ → ℝ) (fs : ℝ) (N : ℕ) :
    Option (List ℝ) :=
  (fft (sampled_values signal fs N)).map (fun spectrum =>
    (spectrum.map (fun z => Complex.abs z / N)).take (N / 2))

/-- The spectral computation of `analyze_spectrum` (lines 38-55): the
frequency axis `fftfreq(N, 1/fs)[:N//2]` paired with the doubled one-sided
magnitude.  Plotting (lines 57-111) is presentation only and not modelled. -/
noncomputable def analyze_spectrum (signal : ℝ → ℝ) (fs : ℝ) (N : ℕ) :
    Option (List ℝ × List ℝ) :=
  (onesided_magnitude signal fs N).map (fun magnitude =>
    ((fftfreq N (1 / fs)).take (N / 2), doubleInterior magnitude))

/-- A concrete test signal used to exercise the analyzer: a polynomial
whose samples at `t = 0, 1, 2, 3, 4` are `1, 0, 0, 0, 0`. -/
noncomputable def sig5 (t : ℝ) : ℝ :=
  (1 - t) * (2 - t) * (3 - t) * (4 - t) / 24

/-! ### Plot titles (lines 237-244 of `update_plot`) -/

/-- The status string chosen in `update_plot`:
`"Undersampling" if fs_current < 2 * f2 else "Proper Sampling"`. -/
def title_status (fs : ℤ) : String :=
  if fs < 2 * f2Int then "Undersampling" else "Proper Sampling"

/-- Title set on the time-domain axes after a recompute. -/
def time_title (fs N : ℤ) : String :=
  "Time Domain - " ++ title_status fs ++ ": Fs=" ++ toString fs
    ++ "Hz, N=" ++ toString N

/-- Title set on the frequency-domain axes after a recompute. -/
def freq_title (fs N : ℤ) : String :=
  "Frequency Domain - " ++ title_status fs ++ ": Fs=" ++ toString fs
    ++ "Hz, N=" ++ toString N

/-! ### Theorems -/

/-- Claim C2: for every sequence of real time values `t` (including the
empty sequence), the signal generator returns elementwise
`cos(2π·f1·t + φ) + cos(2π·f2·t)` with the fixed constants `f1 = 1000`,
`f2 = 1100`, `φ = π/4`. -/
theorem c2_generator_formula :
    (∀ ts : List ℝ, generate_signal_seq ts =
      ts.map (fun t => Real.cos (2 * Real.pi * 1000 * t + Real.pi / 4)
        + Real.cos (2 * Real.pi * 1100 * t))) ∧
    generate_signal_seq [] = [] := by
  constructor
  · intro ts
    unfold generate_signal_seq generate_signal f1 f2 phase
    rfl
  · rfl

/-- Claim C4: the status label used in the plot titles after a recompute is
the undersampled label exactly when `fs < 2·f2 = 2200`, and otherwise the
properly-sampled label; in particular `fs = 1500` is classified as
undersampled. -/
theorem c4_status_label :
    (∀ fs : ℤ, (title_status fs = "Undersampling" ↔ fs < 2200) ∧
      (¬ fs < 2200 → title_status fs = "Proper Sampling") ∧
      time_title fs N_init =
        "Time Domain - " ++ title_status fs ++ ": Fs=" ++ toString fs
          ++ "Hz, N=" ++ toString N_init) ∧
    title_status 1500 = "Undersampling" := by
  refine ⟨fun fs => ⟨?_, ?_, rfl⟩, by decide⟩
  · unfold title_status f2Int
    split_ifs with h
    · simp only [true_iff]
      omega
    · constructor
      · intro hcontra
        exact absurd hcontra (by decide)
      · intro hlt
        omega
  · intro h
    unfold title_status f2Int
    rw [if_neg (by omega)]

/-- Witness for C4 at the concrete frequencies 4000 (properly sampled)
and 1500 (undersampled). -/
theorem c4_witness :
    title_status 4000 = "Proper Sampling" ∧
    title_status 1500 = "Undersampling" :=
  ⟨(c4_status_label.1 4000).2.1 (by decide), c4_status_label.2⟩

/-- Claim C5: every state reachable by key events from the initial session
has strictly positive `fs_current` and `N_current`; moreover a decrease
attempt when the value is at exactly one step leaves the state unchanged. -/
theorem c5_positive_and_floor :
    (∀ st : SessionState, Reachable st →
      0 < st.fs_current ∧ 0 < st.N_current) ∧
    (∀ st : SessionState, st.fs_current = fs_step →
      (on_key st "down").state = st) ∧
    (∀ st : SessionState, st.N_current = N_step →
      (on_key st "left").state = st) := by
  refine ⟨?_, ?_, ?_⟩
  · intro st h
    induction h with
    | init => exact ⟨by decide, by decide⟩
    | step st key h ih =>
        unfold on_key
        split_ifs <;> simp_all [fs_step, N_step] <;> omega
  · intro st h
    simp [on_key, h]
  · intro st h
    simp [on_key, h]

/-- Witness for C5 at concrete states: the initial state (reachable by
construction), and states sitting exactly at one step. -/
theorem c5_witness :
    (0 < initState.fs_current ∧ 0 < initState.N_current) ∧
    (on_key ⟨500, 700⟩ "down").state = ⟨500, 700⟩ ∧
    (on_key ⟨700, 100⟩ "left").state = ⟨700, 100⟩ :=
  ⟨c5_positive_and_floor.1 initState Reachable.init,
   c5_positive_and_floor.2.1 ⟨500, 700⟩ rfl,
   c5_positive_and_floor.2.2 ⟨700, 100⟩ rfl⟩

/-- Counterexample to claim C6 as stated: pressing the save key in the
initial state does run `update_plot` (full recomputation and redraw),
because the `'s'` branch of `on_key` falls through to the trailing
`update_plot()` call instead of returning. -/
theorem c6_counterexample : (on_key initState "s").redrawn = true := by decide

/-- Claim C6 (amended): an invocation of the key handler runs
`update_plot` (recomputation and redraw) exactly for the four accepted
parameter adjustments and for the save key; quit, rejected decreases and
unrecognized keys do not redraw. -/
theorem c6_redraw_iff (st : SessionState) (key : String) :
    (on_key st key).redrawn = true ↔
      (key = "up" ∨ (key = "down" ∧ st.fs_current > fs_step) ∨
        key = "right" ∨ (key = "left" ∧ st.N_current > N_step) ∨
        key = "s") := by
  unfold on_key
  split_ifs <;> simp_all

/-- Claim C7: the save transition records a `savefig` call with filename
`experiment_fs_<fs>_N_<N>.png` built from the current parameters, and
leaves the session state unchanged. -/
theorem c7_save_filename (st : SessionState) :
    (on_key st "s").state = st ∧
    (on_key st "s").saved =
      some ("experiment_fs_" ++ toString st.fs_current ++ "_N_"
        ++ toString st.N_current ++ ".png") :=
  ⟨rfl, rfl⟩

/-- Claim C8: a key other than the six recognized inputs is a no-op: the
state is unchanged and no redraw, no file write and no window close
happens. -/
theorem c8_unrecognized_noop (st : SessionState) (key : String)
    (h : key ∉ (["up", "down", "right", "left", "s", "q"] : List String)) :
    on_key st key = ⟨st, false, none, false⟩ := by
  simp only [List.mem_cons, List.not_mem_nil, or_false, not_or] at h
  obtain ⟨h1, h2, h3, h4, h5, h6⟩ := h
  unfold on_key
  rw [if_neg h1, if_neg (fun hc => h2 hc.1), if_neg h3,
    if_neg (fun hc => h4 hc.1), if_neg h5, if_neg h6]

/-- Witness for C8 at the concrete unrecognized key `"x"`. -/
theorem c8_witness :
    "x" ∉ (["up", "down", "right", "left", "s", "q"] : List String) ∧
    on_key initState "x" = ⟨initState, false, none, false⟩ :=
  ⟨by decide, c8_unrecognized_noop initState "x" (by decide)⟩

/-- The slice-doubling step preserves the length of the magnitude array. -/
theorem doubleInterior_length (m : List ℝ) :
    (doubleInterior m).length = m.length := by
  simp [doubleInterior]

/-- The retained initial segment of `fftfreq N (1/fs)` is the list
`k ↦ k·fs/N` for `k < N/2`. -/
theorem fftfreq_take_eq (N : ℕ) (fs : ℝ) :
    (fftfreq N (1 / fs)).take (N / 2) =
      (List.range (N / 2)).map (fun k : ℕ => (k : ℝ) * fs / N) := by
  unfold fftfreq
  rw [← List.map_take, List.take_range,
    min_eq_left (Nat.div_le_self N 2)]
  apply List.map_congr_left
  intro k hk
  rw [List.mem_range] at hk
  rw [if_pos (by omega : k ≤ (N - 1) / 2), one_div_mul_eq_div,
    div_div_eq_mul_div]

/-- The sampled-value list has one entry per element of `np.arange(N)`. -/
theorem sampled_values_length (signal : ℝ → ℝ) (fs : ℝ) (N : ℕ) :
    (sampled_values signal fs N).length = N := by
  simp [sampled_values, sample_times]

/-- For a positive sample count the FFT succeeds and returns the vector of
DFT bins. -/
theorem fft_sampled_eq (signal : ℝ → ℝ) (fs : ℝ) (N : ℕ) (hN : N ≠ 0) :
    fft (sampled_values signal fs N) =
      some ((List.range N).map (dft (sampled_values signal fs N))) := by
  rw [fft, sampled_values_length, if_neg hN]

/-- Claim C3: for every sample count `N ≥ 1` and sampling frequency
`fs > 0`, the computed spectrum has exactly `⌊N/2⌋` frequency and
magnitude entries, and the frequency of bin `k` is `k·fs/N` for every
`k < ⌊N/2⌋`. -/
theorem c3_spectrum_length_and_freqs (signal : ℝ → ℝ) (fs : ℝ) (N : ℕ)
    (hN : 1 ≤ N) (hfs : 0 < fs) :
    ∃ freqs mags, analyze_spectrum signal fs N = some (freqs, mags) ∧
      freqs.length = N / 2 ∧ mags.length = N / 2 ∧
      ∀ k, k < N / 2 → freqs.getD k 0 = k * fs / N := by
  rw [analyze_spectrum, onesided_magnitude,
    fft_sampled_eq signal fs N (by omega), Option.map_some', Option.map_some']
  refine ⟨_, _, rfl, ?_, ?_, ?_⟩
  · rw [fftfreq_take_eq]
    simp
  · rw [doubleInterior_length]
    simp [sampled_values_length, min_eq_left (Nat.div_le_self N 2)]
  · intro k hk
    rw [fftfreq_take_eq, List.getD_eq_getElem?_getD, List.getElem?_map,
      List.getElem?_range hk, Option.map_some', Option.getD_some]

/-- Witness for C3 at `fs = 2`, `N = 4` with the zero signal. -/
theorem c3_witness :
    (1 ≤ 4 ∧ (0 : ℝ) < 2) ∧
    ∃ freqs mags, analyze_spectrum (fun _ => 0) 2 4 = some (freqs, mags) ∧
      freqs.length = 2 ∧ mags.length = 2 ∧
      ∀ k, k < 2 → freqs.getD k 0 = k * 2 / 4 := by
  refine ⟨⟨by norm_num, by norm_num⟩, ?_⟩
  have h := c3_spectrum_length_and_freqs (fun _ => 0) 2 4
    (by norm_num) (by norm_num)
  simpa using h

/-- Counterexample to claim C9 as stated: at `N = 0` the analyzer does
fail, because `scipy.fft.fft` rejects a zero-length input, so no spectrum
(not even an empty one) is produced. -/
theorem c9_counterexample : analyze_spectrum generate_signal 4000 0 = none := by
  rw [analyze_spectrum, onesided_magnitude, fft, sampled_values_length]
  rfl

/-- Claim C9 (amended): for `N = 1` the analyzer succeeds and returns the
empty spectrum of length `⌊N/2⌋ = 0`, the doubling step being well-defined
on the empty slice; for `N = 0` the underlying FFT rejects the empty
input, so the analyzer fails. -/
theorem c9_degenerate_slice (signal : ℝ → ℝ) (fs : ℝ) (N : ℕ) (h : N < 2) :
    analyze_spectrum signal fs N = if N = 0 then none else some ([], []) := by
  rcases (by omega : N = 0 ∨ N = 1) with rfl | rfl
  · rw [analyze_spectrum, onesided_magnitude, fft, sampled_values_length]
    rfl
  · rw [analyze_spectrum, onesided_magnitude,
      fft_sampled_eq signal fs 1 one_ne_zero]
    simp [doubleInterior]

/-- Witness for C9 (amended) at `N = 1`. -/
theorem c9_witness :
    1 < 2 ∧ analyze_spectrum generate_signal 4000 1 = some ([], []) := by
  refine ⟨by norm_num, ?_⟩
  have h := c9_degenerate_slice generate_signal 4000 1 (by norm_num)
  simpa using h

/-- Claim C1 fails on the code for odd `N`: at the concrete input
`sig5` (sample values `1, 0, 0, 0, 0`), `fs = 1`, `N = 5`, the retained
one-sided spectrum has bins `0` and `1`, the normalized magnitude of bin
`1` is `1/5 ≠ 0`, and the analyzer returns it undoubled (`1/5`, not the
`2/5` the claim requires for odd `N`): the in-place update
`magnitude[1:-1] *= 2` excludes the last retained bin for every `N`, even
when `N` is odd and no Nyquist bin was retained. -/
theorem c1_last_bin_not_doubled_for_odd_count :
    (analyze_spectrum sig5 1 5).map (fun p => p.2.getD 1 0) = some (1 / 5) ∧
    (onesided_magnitude sig5 1 5).map (fun m => m.getD 1 0) = some (1 / 5) ∧
    (1 / 5 : ℝ) ≠ 2 * (1 / 5) := by
  have hx : sampled_values sig5 1 5 = [1, 0, 0, 0, 0] := by
    norm_num [sampled_values, sample_times, sig5, List.range_succ]
  have hd1 : dft [1, 0, 0, 0, 0] 1 = 1 := by
    norm_num [dft, Finset.sum_range_succ, List.getD_cons_zero,
      List.getD_cons_succ, Complex.exp_zero]
  have hone : onesided_magnitude sig5 1 5 =
      some [Complex.abs (dft [1, 0, 0, 0, 0] 0) / 5,
        Complex.abs (dft [1, 0, 0, 0, 0] 1) / 5] := by
    rw [onesided_magnitude, fft_sampled_eq sig5 1 5 (by omega), hx,
      Option.map_some']
    norm_num [List.range_succ]
  refine ⟨?_, ?_, by norm_num⟩
  · rw [analyze_spectrum, hone, Option.map_some', Option.map_some']
    norm_num [doubleInterior, List.range_succ, List.getD_cons_zero,
      List.getD_cons_succ, hd1]
  · rw [hone, Option.map_some']
    norm_num [List.getD_cons_zero, List.getD_cons_succ, hd1]

/-- Claim C10: starting from `fs = 4000`, `N = 1000` with steps `500` and
`100`, every reachable state has `fs_current` a positive multiple of `500`
and `N_current` a positive multiple of `100`; in particular `N_current` is
always even, so the odd-`N` case of the doubling step never arises
interactively. -/
theorem c10_reachable_multiples (st : SessionState) (h : Reachable st) :
    (st.fs_current % 500 = 0 ∧ 0 < st.fs_current) ∧
    (st.N_current % 100 = 0 ∧ 0 < st.N_current) ∧
    st.N_current % 2 = 0 := by
  induction h with
  | init => exact ⟨⟨by decide, by decide⟩, ⟨by decide, by decide⟩, by decide⟩
  | step st key h ih =>
      unfold on_key
      split_ifs <;> simp_all [fs_step, N_step] <;> omega

/-- Witness for C10 at the initial state. -/
theorem c10_witness :
    (initState.fs_current % 500 = 0 ∧ 0 < initState.fs_current) ∧
    (initState.N_current % 100 = 0 ∧ 0 < initState.N_current) ∧
    initState.N_current % 2 = 0 :=
  c10_reachable_multiples initState Reachable.init

end SignalSampling
